import Mathlib

/-!
# Verification of the cloudense deployment library

Shallow embedding, in Lean 4, of the TypeScript sources of the cloudense
repository (src/aws/CloudFront.ts, src/aws/Lambda.ts in its two revisions,
src/aws/Auth.ts in its two revisions, src/aws/Proxy.ts, src/types.ts).

Modelling conventions:
* Cloud API calls and the file read are modelled by a "world" record that
  holds the response each call would produce; successive calls of the same
  command consume successive entries of a response stream (`Nat → Except ...`).
* A JS promise that resolves is `Except.ok`, a rejection is `Except.error`.
  Rejection values are strings, as in the source (the `Publish` enum members
  are the strings NEVER / WHEN_CHANGED / FORCE at runtime).
* `number` counters are `Nat`: every call site passes a non-negative tries
  budget (10 or 100) and the recursion stops at 0, so the `tries <= 0`
  guard of the source is the `0` pattern here.
* Optional (possibly `undefined`) fields are `Option`; the JS truthiness
  test `!x` on a string field is `isFalsyStr` (absent or empty string).
* Timer delays (`setTimeout`) only sequence the recursion and are not
  modelled; the polling interval argument has no observable effect.
* Each embedded operation additionally returns the number of
  PublishVersion requests issued, respectively status reads performed,
  so that "no publish call" and "exactly n reads" are statable.
-/

set_option linter.unusedVariables false

set_option maxRecDepth 8192

/-! ## Shared small helpers -/

/-- Structural prefix test on character lists (the first list is the
candidate head of the second). -/
def charsLead : List Char → List Char → Bool
  | [], _ => true
  | _ :: _, [] => false
  | a :: as, b :: bs => a == b && charsLead as bs

/-- JS `String.prototype.startsWith`: the characters of `pre` head the
characters of `s`. Defined structurally so concrete instances evaluate in
the kernel (the library `String.startsWith` recurses by well-founded byte
positions and does not). -/
def strStartsWith (s pre : String) : Bool :=
  charsLead pre.data s.data

/-- JS truthiness of an optional string: `undefined` and the empty string
are falsy (used for `!functionData.FunctionName`, `!functionData.Version`). -/
def isFalsyStr : Option String → Bool
  | none => true
  | some s => s == ""

/-- The empty string (the version reported by a converted no-op publish). -/
def emptyStr : String := ""

/-! ## CloudFront module (src/aws/CloudFront.ts) -/

/-- Source: `CacheBehaviorEventDefinition` interface. -/
structure CacheBehaviorEventDefinition where
  pathPattern : String
  targetOrigin : String
  eventType : String
deriving DecidableEq

/-- Source: SDK `LambdaFunctionAssociation` (the fields the code and the
claims touch). -/
structure LambdaFunctionAssociation where
  LambdaFunctionARN : Option String
  EventType : Option String
  IncludeBody : Option Bool
deriving DecidableEq

/-- Source: SDK `LambdaFunctionAssociations` list wrapper. -/
structure LambdaFunctionAssociations where
  Quantity : Int
  Items : Option (List LambdaFunctionAssociation)
deriving DecidableEq

/-- Source: SDK `CacheBehavior`. `ViewerProtocolPolicy` stands for the
fields the rewrite never touches; the association list is dereferenced
unconditionally by `updateCacheBehavior` for a matching rule, so it is
modelled as present. -/
structure CacheBehavior where
  PathPattern : Option String
  TargetOriginId : Option String
  ViewerProtocolPolicy : Option String
  LambdaFunctionAssociations : LambdaFunctionAssociations
deriving DecidableEq

/-- Source: SDK `CacheBehaviors` list wrapper. -/
structure CacheBehaviors where
  Quantity : Int
  Items : Option (List CacheBehavior)
deriving DecidableEq

/-- Source: SDK `DistributionConfig` (fields beyond the cache behaviors are
represented by `CallerReference`). -/
structure DistributionConfig where
  CallerReference : Option String
  CacheBehaviors : CacheBehaviors
deriving DecidableEq

/-- Source: `updateLambdaFunctionAssociation` (CloudFront.ts 187-197).
`item.LambdaFunctionARN && item.LambdaFunctionARN.startsWith(arnWithoutVersion)`:
the truthiness guard excludes an absent or empty ARN. -/
def updateLambdaFunctionAssociation (arnWithoutVersion lambdaFunctionVersion : String)
    (item : LambdaFunctionAssociation) : LambdaFunctionAssociation :=
  match item.LambdaFunctionARN with
  | none => item
  | some a =>
    if a ≠ "" ∧ strStartsWith a arnWithoutVersion = true then
      { item with LambdaFunctionARN := some (arnWithoutVersion ++ ":" ++ lambdaFunctionVersion) }
    else item

/-- Source: `updateLambdaFunctionAssociations` (CloudFront.ts 174-185).
Guard `items.Quantity > 0 && items.Items && items.Items.length > 0`. -/
def updateLambdaFunctionAssociations (arnWithoutVersion lambdaFunctionVersion : String)
    (items : LambdaFunctionAssociations) : LambdaFunctionAssociations :=
  match items.Items with
  | none => items
  | some l =>
    if 0 < items.Quantity ∧ 0 < l.length then
      { items with
        Items := some (l.map (updateLambdaFunctionAssociation arnWithoutVersion lambdaFunctionVersion)) }
    else items

/-- Source: `updateCacheBehavior` (CloudFront.ts 154-172). -/
def updateCacheBehavior (target : CacheBehaviorEventDefinition)
    (arnWithoutVersion lambdaFunctionVersion : String) (item : CacheBehavior) : CacheBehavior :=
  if item.PathPattern = some target.pathPattern ∧ item.TargetOriginId = some target.targetOrigin then
    { item with
      LambdaFunctionAssociations :=
        updateLambdaFunctionAssociations arnWithoutVersion lambdaFunctionVersion
          item.LambdaFunctionAssociations }
  else item

/-- Source: `updateCacheBehaviors` (CloudFront.ts 140-152).
Guard `items.Quantity > 0 && items.Items && items.Items.length > 0`. -/
def updateCacheBehaviors (target : CacheBehaviorEventDefinition)
    (arnWithoutVersion lambdaFunctionVersion : String) (items : CacheBehaviors) : CacheBehaviors :=
  match items.Items with
  | none => items
  | some l =>
    if 0 < items.Quantity ∧ 0 < l.length then
      { items with
        Items := some (l.map (updateCacheBehavior target arnWithoutVersion lambdaFunctionVersion)) }
    else items

/-- The JS TypeError raised by the `CacheBehaviors.Items[0]` dereference of
the log calls when the rule list is absent or empty. -/
def typeErrorMsg : String := "TypeError: Cannot read properties of undefined"

/-- The dereference `CacheBehaviors.Items[0].LambdaFunctionAssociations`
performed by the log calls at CloudFront.ts 125 and 135: it throws a
TypeError when `Items` is absent (`Items[0]` on `undefined`) or empty
(`.LambdaFunctionAssociations` on `undefined`), and otherwise yields the
first rule's association list. -/
def firstRuleAssociations (cbs : CacheBehaviors) :
    Except String LambdaFunctionAssociations :=
  match cbs.Items with
  | none => Except.error typeErrorMsg
  | some [] => Except.error typeErrorMsg
  | some (item :: _) => Except.ok item.LambdaFunctionAssociations

/-- Source: `updateCacheBehaviorLambdaFunctionVersion` (CloudFront.ts 112-138);
the `GetDistributionConfigCommandOutput` is the pair (ETag, DistributionConfig).
The two log calls (lines 125 and 135) dereference
`CacheBehaviors.Items[0].LambdaFunctionAssociations` before and after the
rewrite; a throw inside the handler rejects the chain, hence the `Except`
result. -/
def updateCacheBehaviorLambdaFunctionVersion (target : CacheBehaviorEventDefinition)
    (arnWithoutVersion lambdaFunctionVersion : String)
    (response : String × DistributionConfig) : Except String (String × DistributionConfig) :=
  match firstRuleAssociations response.2.CacheBehaviors with
  | Except.error e => Except.error e
  | Except.ok _logBefore =>
    let patched : DistributionConfig :=
      { response.2 with
        CacheBehaviors :=
          updateCacheBehaviors target arnWithoutVersion lambdaFunctionVersion
            response.2.CacheBehaviors }
    match firstRuleAssociations patched.CacheBehaviors with
    | Except.error e => Except.error e
    | Except.ok _logAfter => Except.ok (response.1, patched)

/-- Source: `checkStatus` (CloudFront.ts 70-96). One GetDistribution read is
performed per invocation, before the `tries <= 0` test; the second component
counts the reads performed. `statuses k` is the status string the k-th read
returns. -/
def checkStatus (statuses : Nat → String) (idx : Nat) : Nat → Bool × Nat
  | 0 => (false, 1)
  | Nat.succ t =>
    if statuses idx = "Deployed" then (true, 1)
    else
      let r := checkStatus statuses (idx + 1) t
      (r.1, r.2 + 1)

/-- Source: `getDistributionStatus` (CloudFront.ts 30-37): a ten-try poll.
The client construction is not observable here. -/
def getDistributionStatus (statuses : Nat → String) : Bool × Nat :=
  checkStatus statuses 0 10

/-- Responses of the CloudFront control plane for one
`deployLamdaEdgeFunction` run. -/
structure CFWorld where
  getConfig : Except String (String × DistributionConfig)
  updateResult : Except String String
  statuses : Nat → String

/-- The promise chain built inside `deployLamdaEdgeFunction`
(CloudFront.ts 47-67): get config, rewrite, push, poll with budget 100.
The final `.then` only logs the boolean, so the chain resolves with no
value (`Unit`). -/
def deployLamdaEdgeFunctionChain (target : CacheBehaviorEventDefinition)
    (arnWithoutVersion lambdaFunctionVersion : String) (w : CFWorld) : Except String Unit :=
  match w.getConfig with
  | Except.error e => Except.error e
  | Except.ok response =>
    match updateCacheBehaviorLambdaFunctionVersion target arnWithoutVersion
        lambdaFunctionVersion response with
    | Except.error e => Except.error e
    | Except.ok _patched =>
      match w.updateResult with
      | Except.error e => Except.error e
      | Except.ok _resp =>
        let deployed := (checkStatus w.statuses 0 100).1
        Except.ok ()

/-- Source: `deployLamdaEdgeFunction` (CloudFront.ts 39-68). The body starts
the promise chain but does not return it: the function itself returns
`undefined`, modelled as `Unit`. -/
def deployLamdaEdgeFunction (target : CacheBehaviorEventDefinition)
    (arnWithoutVersion lambdaFunctionVersion : String) (w : CFWorld) : Unit :=
  let _chain := deployLamdaEdgeFunctionChain target arnWithoutVersion lambdaFunctionVersion w
  ()

/-! ## Lambda module (src/aws/Lambda.ts, both revisions) -/

/-! Source: the SDK `LastUpdateStatus` enum: its members are these strings. -/

namespace LastUpdateStatus

def InProgress : String := "InProgress"

def Successful : String := "Successful"

def Failed : String := "Failed"

end LastUpdateStatus

/-- Source: `Publish` enum (Lambda.ts). -/
inductive Publish
  | Never
  | WhenChanged
  | Force
deriving DecidableEq

/-- The runtime value of a `Publish` member (they are string enums). -/
def Publish.value : Publish → String
  | Publish.Never => "NEVER"
  | Publish.WhenChanged => "WHEN_CHANGED"
  | Publish.Force => "FORCE"

/-- Source: SDK `GetFunctionConfigurationCommandOutput` (the fields the code
reads). A PublishVersion response has the same shape. -/
structure GetFunctionConfigurationCommandOutput where
  FunctionName : Option String
  Version : Option String
  RevisionId : Option String
  CodeSha256 : Option String
  LastUpdateStatus : Option String
deriving DecidableEq

/-- Responses of the Lambda control plane for one `deployFunction` run:
the file read, the successive GetFunctionConfiguration responses (read 0 is
the existence check, reads 1, 2, ... feed the status wait of the revision
that has one), the UpdateFunctionCode response and the PublishVersion
response. -/
structure LambdaWorld where
  fileRead : Except String (List Nat)
  configReads : Nat → Except String GetFunctionConfigurationCommandOutput
  updateCode : Except String GetFunctionConfigurationCommandOutput
  publishResp : Except String GetFunctionConfigurationCommandOutput

/-- The placeholder status used when a response carries none. -/
def couldNotReadStatusMsg : String := "Could not read status"

/-- Source: `const status = response && response.LastUpdateStatus ?
response.LastUpdateStatus : 'Could not read status'` (Lambda.ts). -/
def statusOfResponse (response : GetFunctionConfigurationCommandOutput) : String :=
  match response.LastUpdateStatus with
  | none => couldNotReadStatusMsg
  | some s => if s = "" then couldNotReadStatusMsg else s

/-- Rejection message of the exhausted status wait (Lambda.ts 292). -/
def retriesExhaustedMsg : String :=
  "Retries exhausted while waiting for status \"Success\", giving up."

/-- Rejection message on observing the Failed status (Lambda.ts 295). -/
def statusFailedMsg : String :=
  "Encountered status \"Failed\" while waiting for LastUpdateStatus \"Success\", terminating."

/-- Rejection message when the publish response carries no version. -/
def publishFailedMsg : String :=
  "Publish version failed: Could not retrieve new version"

/-- Rejection message of the missing-name check (Lambda.ts 265). -/
def noFunctionNameMsg : String :=
  "No function name in function configuration."

/-- Source: `awaitStatusSuccess` (Lambda.ts 284-308). One
GetFunctionConfiguration read per invocation, performed before the
`tries <= 0` test; the `tries <= 0` rejection precedes the Failed check.
Second component counts the reads performed. -/
def awaitStatusSuccess (reads : Nat → Except String GetFunctionConfigurationCommandOutput)
    (idx : Nat) : Nat → (Except String GetFunctionConfigurationCommandOutput) × Nat
  | 0 =>
    match reads idx with
    | Except.error e => (Except.error e, 1)
    | Except.ok _response => (Except.error retriesExhaustedMsg, 1)
  | Nat.succ t =>
    match reads idx with
    | Except.error e => (Except.error e, 1)
    | Except.ok response =>
      if response.LastUpdateStatus = some LastUpdateStatus.Failed then
        (Except.error statusFailedMsg, 1)
      else if statusOfResponse response = LastUpdateStatus.Successful then
        (Except.ok response, 1)
      else
        let r := awaitStatusSuccess reads (idx + 1) t
        (r.1, r.2 + 1)

/-- Source: `publishOrReject` (identical in both Lambda.ts revisions,
lines 326-343 and 470-487): `Never` and the unchanged-hash case reject with
the corresponding `Publish` member (a string at runtime); `Force` and a
changed hash resolve with the post-upload configuration. -/
def publishOrReject (publish : Publish)
    (pair : GetFunctionConfigurationCommandOutput × GetFunctionConfigurationCommandOutput) :
    Except String GetFunctionConfigurationCommandOutput :=
  match publish with
  | Publish.Never => Except.error Publish.Never.value
  | Publish.Force => Except.ok pair.2
  | Publish.WhenChanged =>
    if pair.1.CodeSha256 = pair.2.CodeSha256 then Except.error Publish.WhenChanged.value
    else Except.ok pair.2

/-- Source: the final `.catch` of both `deployFunction` revisions
(Lambda.ts 253-258 and 428-433): only a rejection with `Publish.Never`
is converted into a resolution with the empty string. -/
def catchNever : Except String String → Except String String
  | Except.ok v => Except.ok v
  | Except.error e => if e = Publish.Never.value then Except.ok emptyStr else Except.error e

/-! The first Lambda.ts revision: `deployFunction` wires
`publishOrReject(Publish.Force)` (line 251) and its `publishVersion` waits
for the update status before publishing. -/

namespace LambdaA

/-- Source: `publishVersion` of the first revision (Lambda.ts 261-282):
name check, status wait with a 100-try budget, then the PublishVersion
request. The second component counts PublishVersion requests issued. -/
def publishVersion (w : LambdaWorld)
    (functionData : GetFunctionConfigurationCommandOutput) : (Except String String) × Nat :=
  if isFalsyStr functionData.FunctionName then (Except.error noFunctionNameMsg, 0)
  else
    match (awaitStatusSuccess w.configReads 1 100).1 with
    | Except.error e => (Except.error e, 0)
    | Except.ok _fd =>
      match w.publishResp with
      | Except.error e => (Except.error e, 1)
      | Except.ok resp =>
        match resp.Version with
        | none => (Except.error publishFailedMsg, 1)
        | some v => if v = "" then (Except.error publishFailedMsg, 1) else (Except.ok v, 1)

/-- The promise chain of the first revision's `deployFunction`
(Lambda.ts 249-252) before the final catch. Note `publishOrReject` is
applied to `Publish.Force`, not to the caller's `publish` argument. -/
def deployFunctionChain (publish : Publish) (w : LambdaWorld) : (Except String String) × Nat :=
  match w.fileRead with
  | Except.error e => (Except.error e, 0)
  | Except.ok _file =>
    match w.configReads 0 with
    | Except.error e => (Except.error e, 0)
    | Except.ok lastFunctionData =>
      match w.updateCode with
      | Except.error e => (Except.error e, 0)
      | Except.ok newFunctionData =>
        match publishOrReject Publish.Force (lastFunctionData, newFunctionData) with
        | Except.error e => (Except.error e, 0)
        | Except.ok fd => publishVersion w fd

/-- Source: `deployFunction`, first revision (Lambda.ts 238-259). -/
def deployFunction (functionName description zipFile : String) (publish : Publish)
    (w : LambdaWorld) : (Except String String) × Nat :=
  let r := deployFunctionChain publish w
  (catchNever r.1, r.2)

end LambdaA

/-! The second Lambda.ts revision: `deployFunction` honours the caller's
`publish` argument (line 426) and its `publishVersion` publishes without a
status wait. -/

namespace LambdaB

/-- Source: `publishVersion` of the second revision (Lambda.ts 436-452). -/
def publishVersion (w : LambdaWorld)
    (newFunctionData : GetFunctionConfigurationCommandOutput) : (Except String String) × Nat :=
  match w.publishResp with
  | Except.error e => (Except.error e, 1)
  | Except.ok resp =>
    match resp.Version with
    | none => (Except.error publishFailedMsg, 1)
    | some v => if v = "" then (Except.error publishFailedMsg, 1) else (Except.ok v, 1)

/-- The promise chain of the second revision's `deployFunction`
(Lambda.ts 424-427) before the final catch. -/
def deployFunctionChain (publish : Publish) (w : LambdaWorld) : (Except String String) × Nat :=
  match w.fileRead with
  | Except.error e => (Except.error e, 0)
  | Except.ok _file =>
    match w.configReads 0 with
    | Except.error e => (Except.error e, 0)
    | Except.ok lastFunctionData =>
      match w.updateCode with
      | Except.error e => (Except.error e, 0)
      | Except.ok newFunctionData =>
        match publishOrReject publish (lastFunctionData, newFunctionData) with
        | Except.error e => (Except.error e, 0)
        | Except.ok fd => publishVersion w fd

/-- Source: `deployFunction`, second revision (Lambda.ts 413-434). -/
def deployFunction (functionName description zipFile : String) (publish : Publish)
    (w : LambdaWorld) : (Except String String) × Nat :=
  let r := deployFunctionChain publish w
  (catchNever r.1, r.2)

end LambdaB

/-! ## Auth module (src/aws/Auth.ts, both revisions) -/

/-- Source: `SourceProfileInit` profile-selection parameters (external SDK);
only the profile name is represented. -/
structure SourceProfileInit where
  profile : Option String
deriving DecidableEq

/-- The credential provider built by the external `fromIni` factory; it is
opaque to this code, so it is represented freely by its construction. -/
inductive CredentialProvider
  | fromIni (options : SourceProfileInit)
deriving DecidableEq

/-- Rejection message of the unmatched-strategy case. -/
def authFailedMsg : String := "Authentication failed: Could not get credentials."

namespace Auth

/-- Source: `Config` interface of Auth.ts. -/
structure Config where
  type : String
  options : SourceProfileInit
deriving DecidableEq

/-- Source: `getCredentials`, fail-fast revision (src/unnamed/part_000
lines 10-13): `fromIni` yields a provider over `config.options`, anything
else throws the authentication error. -/
def getCredentials (config : Config) : Except String CredentialProvider :=
  if config.type = "fromIni" then Except.ok (CredentialProvider.fromIni config.options)
  else Except.error authFailedMsg

end Auth

namespace AuthLegacy

/-- Source: `getCredentials`, earlier revision (src/aws/Auth.ts 9-11):
`return config.type === 'fromIni' ? fromIni(config.options) : null`. -/
def getCredentials (config : Auth.Config) : Option CredentialProvider :=
  if config.type = "fromIni" then some (CredentialProvider.fromIni config.options)
  else none

end AuthLegacy

/-! ## Proxy module (src/aws/Proxy.ts) -/

namespace Proxy

/-- Source: `Options` interface of Proxy.ts. -/
structure Options where
  httpsOnly : Bool
deriving DecidableEq

/-- Source: `Config` interface of Proxy.ts. -/
structure Config where
  enabled : Bool
  options : Options
deriving DecidableEq

/-- Source: `proxyClient` (Proxy.ts 12-14). The external `addProxyToClient`
wrapper is an injected parameter, since it lives in the aws-sdk-v3-proxy
dependency: `proxy.enabled ? addProxyToClient(client, proxy.options) : client`. -/
def proxyClient {T : Type} (addProxyToClient : T → Options → T) (client : T)
    (proxy : Config) : T :=
  if proxy.enabled then addProxyToClient client proxy.options else client

end Proxy

/-! ## Concrete inputs used by witnesses and counterexamples -/

/-- A function name used in concrete runs. -/
def fn0 : String := "my-function"

/-- A description used in concrete runs. -/
def desc0 : String := "release build"

/-- A zip path used in concrete runs. -/
def zip0 : String := "dist/code.zip"

/-- The unversioned ARN of the worked example of the specification. -/
def arn0 : String := "arn:aws:lambda:us-east-1:123456789012:function:foo"

/-- Version string of the existing function. -/
def verOne : String := "1"

/-- The version string published in world `w1`. -/
def ver5 : String := "5"

/-- The version string published in world `w2`. -/
def ver6 : String := "6"

/-- The new function version of the worked example. -/
def ver7 : String := "7"

/-- Revision id before the upload. -/
def revOne : String := "rev-1"

/-- Revision id after the upload. -/
def revTwo : String := "rev-2"

/-- Content hash before the upload. -/
def shaOld : String := "sha-old"

/-- Content hash of changed code. -/
def shaNew : String := "sha-new"

/-- The event type of the worked example. -/
def evtViewerRequest : String := "viewer-request"

/-- Caller reference of the concrete distribution config. -/
def refOne : String := "ref-1"

/-- Body of the concrete UpdateDistribution response. -/
def updatedResp : String := "updated"

/-- A pre-upload function configuration whose update status is Successful. -/
def cfgSuccessful : GetFunctionConfigurationCommandOutput :=
  { FunctionName := some fn0
    Version := some verOne
    RevisionId := some revOne
    CodeSha256 := some shaOld
    LastUpdateStatus := some LastUpdateStatus.Successful }

/-- A post-upload configuration with a changed content hash. -/
def cfgNew : GetFunctionConfigurationCommandOutput :=
  { FunctionName := some fn0
    Version := some verOne
    RevisionId := some revTwo
    CodeSha256 := some shaNew
    LastUpdateStatus := some LastUpdateStatus.InProgress }

/-- A post-upload configuration whose content hash equals the pre-upload one. -/
def cfgNewSame : GetFunctionConfigurationCommandOutput :=
  { cfgNew with CodeSha256 := some shaOld }

/-- A configuration reporting the InProgress update status. -/
def cfgInProgress : GetFunctionConfigurationCommandOutput :=
  { cfgSuccessful with LastUpdateStatus := some LastUpdateStatus.InProgress }

/-- A configuration reporting the Failed update status. -/
def cfgFailed : GetFunctionConfigurationCommandOutput :=
  { cfgSuccessful with LastUpdateStatus := some LastUpdateStatus.Failed }

/-- A world in which the zip is readable, the function exists, every status
read reports Successful, the upload changes the hash and the provider
publishes version 5. -/
def w1 : LambdaWorld :=
  { fileRead := Except.ok [80, 75, 3, 4]
    configReads := fun _ => Except.ok cfgSuccessful
    updateCode := Except.ok cfgNew
    publishResp := Except.ok { cfgNew with Version := some ver5 } }

/-- Like `w1`, but the upload leaves the content hash unchanged and the
provider would publish version 6. -/
def w2 : LambdaWorld :=
  { fileRead := Except.ok [80, 75, 3, 4]
    configReads := fun _ => Except.ok cfgSuccessful
    updateCode := Except.ok cfgNewSame
    publishResp := Except.ok { cfgNewSame with Version := some ver6 } }

/-- A world whose second status-wait poll observes the Failed status
(read 0 is the existence check, read 1 is InProgress, read 2 is Failed). -/
def w6 : LambdaWorld :=
  { fileRead := Except.ok [80, 75, 3, 4]
    configReads := fun k => if k = 2 then Except.ok cfgFailed else Except.ok cfgInProgress
    updateCode := Except.ok cfgNew
    publishResp := Except.ok { cfgNew with Version := some ver5 } }

/-- A world in which the function's update status never leaves InProgress. -/
def wInProg : LambdaWorld :=
  { fileRead := Except.ok [80, 75, 3, 4]
    configReads := fun _ => Except.ok cfgInProgress
    updateCode := Except.ok cfgNew
    publishResp := Except.ok { cfgNew with Version := some ver5 } }

/-- The cache-behavior target of the worked example. -/
def target0 : CacheBehaviorEventDefinition :=
  { pathPattern := "/api/*", targetOrigin := "origin-1", eventType := "viewer-request" }

/-- The function association of the worked example, carrying the
unversioned ARN. -/
def assocFoo : LambdaFunctionAssociation :=
  { LambdaFunctionARN := some arn0
    EventType := some evtViewerRequest
    IncludeBody := some false }

/-- An empty cache-behavior list (quantity zero). -/
def emptyCacheBehaviors : CacheBehaviors := { Quantity := 0, Items := none }

/-- A distribution config with no cache behaviors. -/
def distCfg0 : DistributionConfig :=
  { CallerReference := some refOne, CacheBehaviors := emptyCacheBehaviors }

/-- The cache-behavior rule of the worked example: it matches `target0` and
carries the association `assocFoo`. -/
def ruleFoo : CacheBehavior :=
  { PathPattern := some target0.pathPattern
    TargetOriginId := some target0.targetOrigin
    ViewerProtocolPolicy := none
    LambdaFunctionAssociations := { Quantity := 1, Items := some [assocFoo] } }

/-- A distribution config whose single cache-behavior rule is `ruleFoo`. -/
def distCfg1 : DistributionConfig :=
  { CallerReference := some refOne
    CacheBehaviors := { Quantity := 1, Items := some [ruleFoo] } }

/-- A CloudFront world in which the distribution has the rule list
`[ruleFoo]` and every status read reports Deployed. -/
def wCF : CFWorld :=
  { getConfig := Except.ok ("etag-1", distCfg1)
    updateResult := Except.ok updatedResp
    statuses := fun _ => "Deployed" }

/-- Like `wCF`, but the distribution config has no cache-behavior rules, so
the log calls' `Items[0]` dereference throws. -/
def wCFEmpty : CFWorld :=
  { getConfig := Except.ok ("etag-1", distCfg0)
    updateResult := Except.ok updatedResp
    statuses := fun _ => "Deployed" }

/-- The InProgress distribution status string. -/
def distInProgress : String := "InProgress"

/-- The Deployed distribution status string. -/
def distDeployed : String := "Deployed"

/-- A status stream that reports InProgress on the first ten reads and
Deployed from the eleventh read on. -/
def statusesLateDeploy : Nat → String :=
  fun k => if k < 10 then distInProgress else distDeployed

/-- A profile name for the credential examples. -/
def profileDefault : String := "default"

/-- An auth configuration selecting the `fromIni` strategy. -/
def authIni : Auth.Config :=
  { type := "fromIni", options := { profile := some profileDefault } }

/-- An auth configuration with an unmatched strategy identifier. -/
def authUnknown : Auth.Config :=
  { type := "unknown", options := { profile := none } }

/-! ## Polling lemmas -/

/-- If none of the first `n` reads reports Deployed, `checkStatus` with an
`n`-try budget resolves false after `n + 1` reads: the last read is the one
performed by the invocation that finds `tries <= 0`. -/
theorem checkStatus_notDeployed (statuses : Nat → String) :
    ∀ (n idx : Nat), (∀ k, k < n → statuses (idx + k) ≠ "Deployed") →
    checkStatus statuses idx n = (false, n + 1)
  | 0, idx, _ => rfl
  | Nat.succ t, idx, h => by
    have h0 : statuses idx ≠ "Deployed" := by
      have := h 0 (Nat.succ_pos t)
      simpa using this
    have ih := checkStatus_notDeployed statuses t (idx + 1) (fun k hk => by
      have hx := h (k + 1) (Nat.succ_lt_succ hk)
      have e : idx + (k + 1) = idx + 1 + k := by omega
      rw [e] at hx
      exact hx)
    simp [checkStatus, h0, ih]

/-- If the first Deployed answer among the first `n` reads comes at read
`j`, `checkStatus` with an `n`-try budget resolves true after `j + 1`
reads. -/
theorem checkStatus_deployedAt (statuses : Nat → String) :
    ∀ (j n idx : Nat), j < n → (∀ k, k < j → statuses (idx + k) ≠ "Deployed") →
    statuses (idx + j) = "Deployed" →
    checkStatus statuses idx n = (true, j + 1)
  | 0, n, idx, hjn, _, hdep => by
    obtain ⟨t, rfl⟩ : ∃ t, n = t + 1 := ⟨n - 1, by omega⟩
    have hd : statuses idx = "Deployed" := by simpa using hdep
    simp [checkStatus, hd]
  | Nat.succ i, n, idx, hjn, hpre, hdep => by
    obtain ⟨t, rfl⟩ : ∃ t, n = t + 1 := ⟨n - 1, by omega⟩
    have h0 : statuses idx ≠ "Deployed" := by
      have := hpre 0 (Nat.succ_pos i)
      simpa using this
    have ih := checkStatus_deployedAt statuses i t (idx + 1) (by omega)
      (fun k hk => by
        have hx := hpre (k + 1) (Nat.succ_lt_succ hk)
        have e : idx + (k + 1) = idx + 1 + k := by omega
        rw [e] at hx
        exact hx)
      (by
        have e : idx + (i + 1) = idx + 1 + i := by omega
        rw [e] at hdep
        exact hdep)
    simp [checkStatus, h0, ih]

/-- If the first `n` status-wait reads resolve with a pending response
(neither Failed nor Successful) and the read after them resolves at all,
`awaitStatusSuccess` with an `n`-try budget rejects with the
retries-exhausted message after `n + 1` reads. -/
theorem awaitStatusSuccess_exhausts
    (reads : Nat → Except String GetFunctionConfigurationCommandOutput) :
    ∀ (n idx : Nat),
    (∀ k, k < n → ∃ c, reads (idx + k) = Except.ok c ∧
      c.LastUpdateStatus ≠ some LastUpdateStatus.Failed ∧
      statusOfResponse c ≠ LastUpdateStatus.Successful) →
    (∃ c, reads (idx + n) = Except.ok c) →
    awaitStatusSuccess reads idx n = (Except.error retriesExhaustedMsg, n + 1)
  | 0, idx, _, hlast => by
    obtain ⟨c, hc⟩ := hlast
    have hc0 : reads idx = Except.ok c := by simpa using hc
    simp [awaitStatusSuccess, hc0]
  | Nat.succ t, idx, hpend, hlast => by
    obtain ⟨c0, hc0, hnf, hns⟩ := hpend 0 (Nat.succ_pos t)
    have hc0x : reads idx = Except.ok c0 := by simpa using hc0
    have ih := awaitStatusSuccess_exhausts reads t (idx + 1)
      (fun k hk => by
        obtain ⟨c, hc, h1, h2⟩ := hpend (k + 1) (Nat.succ_lt_succ hk)
        refine ⟨c, ?_, h1, h2⟩
        have e : idx + 1 + k = idx + (k + 1) := by omega
        rw [e]
        exact hc)
      (by
        obtain ⟨c, hc⟩ := hlast
        refine ⟨c, ?_⟩
        have e : idx + 1 + t = idx + (t + 1) := by omega
        rw [e]
        exact hc)
    simp [awaitStatusSuccess, hc0x, hnf, hns, ih]

/-- If the status-wait reads before read `j` are pending and read `j`
observes the Failed status with tries remaining, `awaitStatusSuccess`
rejects with the Failed message after `j + 1` reads: no further polling. -/
theorem awaitStatusSuccess_failedAt
    (reads : Nat → Except String GetFunctionConfigurationCommandOutput) :
    ∀ (j n idx : Nat), j < n →
    (∀ k, k < j → ∃ c, reads (idx + k) = Except.ok c ∧
      c.LastUpdateStatus ≠ some LastUpdateStatus.Failed ∧
      statusOfResponse c ≠ LastUpdateStatus.Successful) →
    (∃ c, reads (idx + j) = Except.ok c ∧
      c.LastUpdateStatus = some LastUpdateStatus.Failed) →
    awaitStatusSuccess reads idx n = (Except.error statusFailedMsg, j + 1)
  | 0, n, idx, hjn, _, hfail => by
    obtain ⟨t, rfl⟩ : ∃ t, n = t + 1 := ⟨n - 1, by omega⟩
    obtain ⟨c, hc, hf⟩ := hfail
    have hc0 : reads idx = Except.ok c := by simpa using hc
    simp [awaitStatusSuccess, hc0, hf]
  | Nat.succ i, n, idx, hjn, hpend, hfail => by
    obtain ⟨t, rfl⟩ : ∃ t, n = t + 1 := ⟨n - 1, by omega⟩
    obtain ⟨c0, hc0, hnf, hns⟩ := hpend 0 (Nat.succ_pos i)
    have hc0x : reads idx = Except.ok c0 := by simpa using hc0
    have ih := awaitStatusSuccess_failedAt reads i t (idx + 1) (by omega)
      (fun k hk => by
        obtain ⟨c, hc, h1, h2⟩ := hpend (k + 1) (Nat.succ_lt_succ hk)
        refine ⟨c, ?_, h1, h2⟩
        have e : idx + 1 + k = idx + (k + 1) := by omega
        rw [e]
        exact hc)
      (by
        obtain ⟨c, hc, hf⟩ := hfail
        refine ⟨c, ?_, hf⟩
        have e : idx + 1 + i = idx + (i + 1) := by omega
        rw [e]
        exact hc)
    simp [awaitStatusSuccess, hc0x, hnf, hns, ih]

/-! ## Pipeline lemma for the first deployFunction revision -/

/-- If the zip read, the existence check and the code upload succeed, the
uploaded configuration carries a function name, and the status wait rejects
with `e` (not the `Never` sentinel), then the first revision's
`deployFunction` rejects with `e` and issues no PublishVersion request. -/
theorem deployFunctionA_awaitError (fn d z : String) (p : Publish) (w : LambdaWorld)
    (e : String)
    (hfile : ∃ b, w.fileRead = Except.ok b)
    (hcheck : ∃ c, w.configReads 0 = Except.ok c)
    (hupd : ∃ c, w.updateCode = Except.ok c ∧ isFalsyStr c.FunctionName = false)
    (hawait : (awaitStatusSuccess w.configReads 1 100).1 = Except.error e)
    (hne : e ≠ Publish.Never.value) :
    LambdaA.deployFunction fn d z p w = (Except.error e, 0) := by
  obtain ⟨b, hb⟩ := hfile
  obtain ⟨c1, hc1⟩ := hcheck
  obtain ⟨c2, hc2, hname⟩ := hupd
  unfold LambdaA.deployFunction LambdaA.deployFunctionChain LambdaA.publishVersion
  rw [hb, hc1, hc2]
  simp [publishOrReject, hname, hawait, catchNever, hne]

/-! ## Claim theorems -/

/-- Claim C1: with `publish = Never`, a readable zip and an existing
function, `deployFunction` is claimed to resolve with the empty string and
to issue no PublishVersion request. The first Lambda.ts revision wires
`publishOrReject(Publish.Force)` and therefore, at such an input, issues
one PublishVersion request and resolves with the provider's version; the
second revision, which honours the caller's `publish` argument, behaves as
the claim states. -/
theorem deployFunction_never_still_publishes :
    LambdaA.deployFunction fn0 desc0 zip0 Publish.Never w1 = (Except.ok ver5, 1)
    ∧ LambdaB.deployFunction fn0 desc0 zip0 Publish.Never w1 = (Except.ok emptyStr, 0) :=
  ⟨rfl, rfl⟩

/-- Claim C2: with `publish = WhenChanged` and an unchanged content hash,
`deployFunction` is claimed to resolve with the empty string and issue no
publish request. In the revision that honours the policy, `publishOrReject`
rejects with the `WhenChanged` sentinel and the final catch converts only
the `Never` sentinel, so the operation rejects with `WHEN_CHANGED` instead
of resolving; in the forced-publish revision the unchanged hash is ignored
and a publish request is issued. -/
theorem deployFunction_whenChanged_unchanged_rejects :
    LambdaB.deployFunction fn0 desc0 zip0 Publish.WhenChanged w2
      = (Except.error Publish.WhenChanged.value, 0)
    ∧ LambdaA.deployFunction fn0 desc0 zip0 Publish.WhenChanged w2 = (Except.ok ver6, 1) :=
  ⟨rfl, rfl⟩

/-- Claim C4: `deployLamdaEdgeFunction` is claimed to return a boolean.
The source never returns its promise chain (and the chain's final handler
maps the poll result to `undefined` after logging it), so the operation
yields no boolean at all, here `Unit`; the boolean the claim describes is
computed internally by `checkStatus` with the 100-try budget, as the third
conjunct shows at a world with one matching rule whose first status read
reports Deployed. The fourth conjunct shows the further divergence at a
distribution without cache-behavior rules: the log calls' `Items[0]`
dereference throws, so the chain rejects instead of polling at all. -/
theorem deployLamdaEdgeFunction_returns_unit_bug :
    deployLamdaEdgeFunction target0 arn0 ver7 wCF = ()
    ∧ deployLamdaEdgeFunctionChain target0 arn0 ver7 wCF = Except.ok ()
    ∧ checkStatus wCF.statuses 0 100 = (true, 1)
    ∧ deployLamdaEdgeFunctionChain target0 arn0 ver7 wCFEmpty = Except.error typeErrorMsg :=
  ⟨rfl, rfl, rfl, rfl⟩

/-- Claim C5 (counterexample): when every status read reports InProgress,
`getDistributionStatus` is claimed to return false after exactly 10 status
reads; in fact it performs 11 reads (the ten-try budget plus the read made
by the invocation that finds the counter exhausted). -/
theorem getDistributionStatus_not_ten_reads :
    getDistributionStatus (fun _ => "InProgress") ≠ (false, 10) := by
  decide

/-- Claim C5 (amended): `getDistributionStatus` returns true after exactly
one status read when the first read already reports Deployed, and returns
false after exactly 11 status reads when every read reports InProgress. -/
theorem getDistributionStatus_read_counts (statuses : Nat → String) :
    (statuses 0 = "Deployed" → getDistributionStatus statuses = (true, 1))
    ∧ ((∀ k, k ≤ 10 → statuses k = "InProgress") →
        getDistributionStatus statuses = (false, 11)) := by
  constructor
  · intro h
    unfold getDistributionStatus
    exact checkStatus_deployedAt statuses 0 10 0 (by omega)
      (fun k hk => absurd hk (by omega)) (by simpa using h)
  · intro h
    unfold getDistributionStatus
    exact checkStatus_notDeployed statuses 10 0 (fun k hk => by
      have hs := h k (by omega)
      rw [Nat.zero_add, hs]
      decide)

/-- Witness for the amended C5 statement at concrete status streams. -/
theorem getDistributionStatus_read_counts_witness :
    getDistributionStatus (fun _ => "Deployed") = (true, 1)
    ∧ getDistributionStatus (fun _ => "InProgress") = (false, 11) :=
  ⟨(getDistributionStatus_read_counts (fun _ => "Deployed")).1 rfl,
   (getDistributionStatus_read_counts (fun _ => "InProgress")).2 (fun _ _ => rfl)⟩

/-- Claim C10: once the remaining-tries counter is at 0 the poller still
performs one status read, ignores its outcome — even a Deployed answer —
and resolves false; a whole run whose budget `n` is spent without seeing
Deployed therefore performs `n + 1` reads and resolves false even when the
final read reports Deployed. -/
theorem checkStatus_post_budget_read_ignored (statuses : Nat → String) (n idx : Nat)
    (hall : ∀ k, k < n → statuses (idx + k) ≠ "Deployed")
    (hlast : statuses (idx + n) = "Deployed") :
    checkStatus statuses idx n = (false, n + 1)
    ∧ checkStatus statuses (idx + n) 0 = (false, 1) :=
  ⟨checkStatus_notDeployed statuses n idx hall, rfl⟩

/-- Witness for C10: ten InProgress reads then a Deployed read the poller
ignores. -/
theorem checkStatus_post_budget_read_ignored_witness :
    checkStatus statusesLateDeploy 0 10 = (false, 11)
    ∧ checkStatus statusesLateDeploy 10 0 = (false, 1) := by
  have h := checkStatus_post_budget_read_ignored statusesLateDeploy 10 0
    (fun k hk => by
      rw [Nat.zero_add]
      unfold statusesLateDeploy
      rw [if_pos hk]
      decide)
    (by decide)
  simpa using h

/-- Claim C6: in any `deployFunction` execution of the revision with a
status wait, if the pre-publish poll number `j` observes the Failed
last-update status (earlier polls being still pending), the operation
rejects with a fatal error (the Failed message while tries remain, the
retries-exhausted message on the final budget-spent read), performs no
further polling attempts (exactly `j + 1` status-wait reads happen) and
issues no PublishVersion request. -/
theorem deployFunction_failed_status_aborts
    (fn d z : String) (p : Publish) (w : LambdaWorld) (j : Nat)
    (hfile : ∃ b, w.fileRead = Except.ok b)
    (hcheck : ∃ c, w.configReads 0 = Except.ok c)
    (hupd : ∃ c, w.updateCode = Except.ok c ∧ isFalsyStr c.FunctionName = false)
    (hj : j ≤ 100)
    (hpre : ∀ k, k < j → ∃ c, w.configReads (1 + k) = Except.ok c ∧
      c.LastUpdateStatus ≠ some LastUpdateStatus.Failed ∧
      statusOfResponse c ≠ LastUpdateStatus.Successful)
    (hfail : ∃ c, w.configReads (1 + j) = Except.ok c ∧
      c.LastUpdateStatus = some LastUpdateStatus.Failed) :
    LambdaA.deployFunction fn d z p w
      = (Except.error (if j < 100 then statusFailedMsg else retriesExhaustedMsg), 0)
    ∧ (awaitStatusSuccess w.configReads 1 100).2 = j + 1 := by
  by_cases hj100 : j < 100
  · have hawait := awaitStatusSuccess_failedAt w.configReads j 100 1 hj100 hpre hfail
    rw [if_pos hj100]
    exact ⟨deployFunctionA_awaitError fn d z p w statusFailedMsg hfile hcheck hupd
        (by rw [hawait]) (by decide),
      by rw [hawait]⟩
  · have hj' : j = 100 := by omega
    subst hj'
    have hawait := awaitStatusSuccess_exhausts w.configReads 100 1 hpre
      (by
        obtain ⟨c, hc, _⟩ := hfail
        exact ⟨c, hc⟩)
    rw [if_neg hj100]
    exact ⟨deployFunctionA_awaitError fn d z p w retriesExhaustedMsg hfile hcheck hupd
        (by rw [hawait]) (by decide),
      by rw [hawait]⟩

/-- Witness for C6: the second status-wait poll of world `w6` observes
Failed; the operation rejects with the Failed message after two status-wait
reads and no publish request. -/
theorem deployFunction_failed_status_aborts_witness :
    LambdaA.deployFunction fn0 desc0 zip0 Publish.WhenChanged w6
      = (Except.error statusFailedMsg, 0)
    ∧ (awaitStatusSuccess w6.configReads 1 100).2 = 2 := by
  have h := deployFunction_failed_status_aborts fn0 desc0 zip0 Publish.WhenChanged w6 1
    ⟨_, rfl⟩ ⟨cfgInProgress, rfl⟩ ⟨cfgNew, rfl, by decide⟩ (by omega)
    (by
      intro k hk
      have hk0 : k = 0 := by omega
      subst hk0
      exact ⟨cfgInProgress, rfl, by decide, by decide⟩)
    ⟨cfgFailed, rfl, by decide⟩
  rw [if_pos (by omega : (1 : Nat) < 100)] at h
  exact h

/-- Claim C7: in any `deployFunction` execution of the revision with a
status wait, if the last-update status never leaves InProgress, the wait
stops once its 100-try budget is spent, the operation rejects with the
retries-exhausted error, and no PublishVersion request is issued (the wait
performs 101 reads: the budget plus the read made by the invocation that
finds the counter exhausted). -/
theorem deployFunction_retries_exhausted_aborts
    (fn d z : String) (p : Publish) (w : LambdaWorld)
    (hfile : ∃ b, w.fileRead = Except.ok b)
    (hcheck : ∃ c, w.configReads 0 = Except.ok c)
    (hupd : ∃ c, w.updateCode = Except.ok c ∧ isFalsyStr c.FunctionName = false)
    (hpoll : ∀ k, k ≤ 100 → ∃ c, w.configReads (1 + k) = Except.ok c ∧
      c.LastUpdateStatus = some LastUpdateStatus.InProgress) :
    LambdaA.deployFunction fn d z p w = (Except.error retriesExhaustedMsg, 0)
    ∧ (awaitStatusSuccess w.configReads 1 100).2 = 101 := by
  have hpend : ∀ k, k < 100 → ∃ c, w.configReads (1 + k) = Except.ok c ∧
      c.LastUpdateStatus ≠ some LastUpdateStatus.Failed ∧
      statusOfResponse c ≠ LastUpdateStatus.Successful := by
    intro k hk
    obtain ⟨c, hc, hs⟩ := hpoll k (by omega)
    refine ⟨c, hc, ?_, ?_⟩
    · rw [hs]
      decide
    · unfold statusOfResponse
      rw [hs]
      decide
  have hlast : ∃ c, w.configReads (1 + 100) = Except.ok c := by
    obtain ⟨c, hc, _⟩ := hpoll 100 (by omega)
    exact ⟨c, hc⟩
  have hawait := awaitStatusSuccess_exhausts w.configReads 100 1 hpend hlast
  exact ⟨deployFunctionA_awaitError fn d z p w retriesExhaustedMsg hfile hcheck hupd
      (by rw [hawait]) (by decide),
    by rw [hawait]⟩

/-- Witness for C7: in world `wInProg` every read reports InProgress; the
operation rejects with the retries-exhausted message after 101 status-wait
reads and no publish request. -/
theorem deployFunction_retries_exhausted_aborts_witness :
    LambdaA.deployFunction fn0 desc0 zip0 Publish.Force wInProg
      = (Except.error retriesExhaustedMsg, 0)
    ∧ (awaitStatusSuccess wInProg.configReads 1 100).2 = 101 :=
  deployFunction_retries_exhausted_aborts fn0 desc0 zip0 Publish.Force wInProg
    ⟨_, rfl⟩ ⟨cfgInProgress, rfl⟩ ⟨cfgNew, rfl, by decide⟩
    (fun k _ => ⟨cfgInProgress, rfl, rfl⟩)

/-- Claim C3: in the cache-behavior rewrite of `deployLamdaEdgeFunction`,
a list reporting quantity at most 0 is returned unchanged (both for rules
and for associations); a rule whose path pattern or target-origin id does
not match the target is returned unchanged; a matching rule has exactly its
association list rewritten; a positive, non-empty rule list is mapped
element-wise; an association whose non-empty ARN starts with
`arnWithoutVersion` gets the ARN `arnWithoutVersion ++ ":" ++ version`
with every other field unchanged; an association whose ARN does not start
with `arnWithoutVersion` is returned unchanged. -/
theorem updateCacheBehaviors_rewrite_spec (target : CacheBehaviorEventDefinition)
    (arnWithoutVersion lambdaFunctionVersion : String) :
    (∀ items : CacheBehaviors, items.Quantity ≤ 0 →
      updateCacheBehaviors target arnWithoutVersion lambdaFunctionVersion items = items)
    ∧ (∀ items : LambdaFunctionAssociations, items.Quantity ≤ 0 →
      updateLambdaFunctionAssociations arnWithoutVersion lambdaFunctionVersion items = items)
    ∧ (∀ item : CacheBehavior,
      ¬(item.PathPattern = some target.pathPattern ∧
        item.TargetOriginId = some target.targetOrigin) →
      updateCacheBehavior target arnWithoutVersion lambdaFunctionVersion item = item)
    ∧ (∀ item : CacheBehavior,
      item.PathPattern = some target.pathPattern →
      item.TargetOriginId = some target.targetOrigin →
      updateCacheBehavior target arnWithoutVersion lambdaFunctionVersion item =
        { item with
          LambdaFunctionAssociations :=
            updateLambdaFunctionAssociations arnWithoutVersion lambdaFunctionVersion
              item.LambdaFunctionAssociations })
    ∧ (∀ items : CacheBehaviors, ∀ l, items.Items = some l →
      0 < items.Quantity → 0 < l.length →
      updateCacheBehaviors target arnWithoutVersion lambdaFunctionVersion items =
        { items with
          Items := some (l.map
            (updateCacheBehavior target arnWithoutVersion lambdaFunctionVersion)) })
    ∧ (∀ assoc : LambdaFunctionAssociation, ∀ a, assoc.LambdaFunctionARN = some a →
      a ≠ "" → strStartsWith a arnWithoutVersion = true →
      updateLambdaFunctionAssociation arnWithoutVersion lambdaFunctionVersion assoc =
        { assoc with
          LambdaFunctionARN := some (arnWithoutVersion ++ ":" ++ lambdaFunctionVersion) })
    ∧ (∀ assoc : LambdaFunctionAssociation,
      (∀ a, assoc.LambdaFunctionARN = some a →
        strStartsWith a arnWithoutVersion = false) →
      updateLambdaFunctionAssociation arnWithoutVersion lambdaFunctionVersion assoc =
        assoc) := by
  refine ⟨?_, ?_, ?_, ?_, ?_, ?_, ?_⟩
  · intro items hq
    unfold updateCacheBehaviors
    cases hI : items.Items with
    | none => rfl
    | some l =>
      simp only []
      rw [if_neg]
      rintro ⟨h1, _⟩
      omega
  · intro items hq
    unfold updateLambdaFunctionAssociations
    cases hI : items.Items with
    | none => rfl
    | some l =>
      simp only []
      rw [if_neg]
      rintro ⟨h1, _⟩
      omega
  · intro item hne
    unfold updateCacheBehavior
    rw [if_neg hne]
  · intro item h1 h2
    unfold updateCacheBehavior
    rw [if_pos ⟨h1, h2⟩]
  · intro items l hI hq hl
    unfold updateCacheBehaviors
    rw [hI]
    simp only []
    rw [if_pos ⟨hq, hl⟩]
  · intro assoc a ha hne hsw
    unfold updateLambdaFunctionAssociation
    rw [ha]
    simp only []
    rw [if_pos ⟨hne, hsw⟩]
  · intro assoc h
    unfold updateLambdaFunctionAssociation
    cases hA : assoc.LambdaFunctionARN with
    | none => rfl
    | some a =>
      simp only []
      rw [if_neg]
      rintro ⟨_, hsw⟩
      rw [h a hA] at hsw
      exact Bool.false_ne_true hsw

/-- Witness for C3 at the worked example of the specification: the matching
association's ARN gets the version suffix 7 while its other fields stay,
and an empty (quantity 0) rule list passes through unchanged. -/
theorem updateCacheBehaviors_rewrite_spec_witness :
    updateLambdaFunctionAssociation arn0 ver7 assocFoo =
      { assocFoo with LambdaFunctionARN := some (arn0 ++ ":" ++ ver7) }
    ∧ updateCacheBehaviors target0 arn0 ver7 emptyCacheBehaviors = emptyCacheBehaviors :=
  ⟨(updateCacheBehaviors_rewrite_spec target0 arn0 ver7).2.2.2.2.2.1 assocFoo arn0
      rfl (by decide) (by decide),
   (updateCacheBehaviors_rewrite_spec target0 arn0 ver7).1 emptyCacheBehaviors (by decide)⟩

/-- Claim C8: `getCredentials` yields a provider built from
`config.options` exactly when `config.type` is the literal `fromIni`, and
fails with the authentication error (rather than returning an absent
value) for every other type. This is the behaviour of the fail-fast
revision; the earlier revision modelled by `AuthLegacy.getCredentials`
returns an absent value instead. -/
theorem getCredentials_strategy_spec (config : Auth.Config) :
    (config.type = "fromIni" →
      Auth.getCredentials config = Except.ok (CredentialProvider.fromIni config.options))
    ∧ (config.type ≠ "fromIni" →
      Auth.getCredentials config = Except.error authFailedMsg) := by
  constructor
  · intro h
    unfold Auth.getCredentials
    rw [if_pos h]
  · intro h
    unfold Auth.getCredentials
    rw [if_neg h]

/-- Witness for C8 at the two configurations of the specification's test
property. -/
theorem getCredentials_strategy_spec_witness :
    Auth.getCredentials authIni = Except.ok (CredentialProvider.fromIni authIni.options)
    ∧ Auth.getCredentials authUnknown = Except.error authFailedMsg :=
  ⟨(getCredentials_strategy_spec authIni).1 rfl,
   (getCredentials_strategy_spec authUnknown).2 (by decide)⟩

/-- Claim C9: with `enabled = false`, `proxyClient` returns the client
itself whatever the options are; with `enabled = true` it returns the
result of wrapping the client through the injected `addProxyToClient`
with `config.options`. -/
theorem proxyClient_enabled_spec {T : Type} (addProxyToClient : T → Proxy.Options → T)
    (client : T) (config : Proxy.Config) :
    (config.enabled = false → Proxy.proxyClient addProxyToClient client config = client)
    ∧ (config.enabled = true →
      Proxy.proxyClient addProxyToClient client config = addProxyToClient client config.options) := by
  constructor
  · intro h
    unfold Proxy.proxyClient
    rw [h]
    rfl
  · intro h
    unfold Proxy.proxyClient
    rw [h]
    rfl

/-- Witness for C9 on a concrete client (a counter) and wrapper. -/
theorem proxyClient_enabled_spec_witness :
    Proxy.proxyClient (fun c _ => c + 1) 0 { enabled := false, options := { httpsOnly := true } } = 0
    ∧ Proxy.proxyClient (fun c _ => c + 1) 0 { enabled := true, options := { httpsOnly := true } } = 1 :=
  ⟨(proxyClient_enabled_spec (fun c _ => c + 1) 0
      { enabled := false, options := { httpsOnly := true } }).1 rfl,
   (proxyClient_enabled_spec (fun c _ => c + 1) 0
      { enabled := true, options := { httpsOnly := true } }).2 rfl⟩
